import Mathlib

/-!
Shallow embedding of `src/life.py` (Conway's Game of Life on a toroidal grid).

The Python data model:
* a game state (`life`) is a list of rows, each row a list of booleans
  (`True` = live cell);
* the textual form is a list of strings over the characters `'.'` and `'#'`.

Python lists are embedded as `List`, Python `int` as `Int` (Python's `%`
on a positive modulus agrees with `Int.emod`), strings as `String`.
Operations that can raise a Python exception (`IndexError` on a bad list
index, `ZeroDivisionError` on `% 0`) return `Option`: `none` marks the
raised exception.  Loops that grow a list with `append` become `foldl`
(or `foldlM` when the body can raise).
-/

/-- Python list indexing `xs[i]`: a non-negative index must be below the
length, a negative index counts from the end; otherwise `IndexError`
(`none`). -/
def pyGet {α : Type} (xs : List α) (i : Int) : Option α :=
  if 0 ≤ i then xs[i.toNat]?
  else if 0 ≤ i + xs.length then xs[(i + (xs.length : Int)).toNat]? else none

/-- Embeds `life_crear(mapa)`: decode a list of strings into the boolean
grid.  Each character `'#'` appends `True` to the row, any other
character appends `False`; the rows are appended to the state in order.
There is no validation of any kind. -/
def life_crear (mapa : List String) : List (List Bool) :=
  mapa.foldl
    (fun estado_inicial_del_juego lista =>
      estado_inicial_del_juego ++
        [lista.data.foldl
          (fun lista_booleanos caracter =>
            lista_booleanos ++ [if caracter = '#' then true else false])
          []])
    []

/-- Embeds `life_mostrar(life)`: encode the boolean grid back into a
list of strings, `True` printing as `"#"` and `False` as `"."`, built by
string concatenation row by row. -/
def life_mostrar (life : List (List Bool)) : List String :=
  life.foldl
    (fun representacion_del_juego lista =>
      representacion_del_juego ++
        [lista.foldl
          (fun cadenas caracter => cadenas ++ (if caracter = true then "#" else "."))
          ""])
    []

/-- The iteration order of the two nested loops
`for i in range(-1, 2): for j in range(-1, 2)` with the offset `(0, 0)`
skipped by the `continue`. -/
def desplazamientos : List (Int × Int) :=
  [(-1, -1), (-1, 0), (-1, 1), (0, -1), (0, 1), (1, -1), (1, 0), (1, 1)]

/-- Embeds `cant_adyacentes(life, f, c)`: the number of live cells among
the 8 toroidal neighbours of position `(f, c)`.  `len(life[0])` raises
on an empty grid, and `% 0` raises when the first row is empty; both are
`none`.  Each neighbour coordinate is reduced modulo the number of rows
/ columns, and `contador += life[fa][ca]` adds 1 for a live cell. -/
def cant_adyacentes (life : List (List Bool)) (f c : Int) : Option Nat :=
  match life.head? with
  | none => none
  | some fila0 =>
    let filas : Int := (life.length : Int)
    let columnas : Int := (fila0.length : Int)
    if columnas = 0 then none
    else
      desplazamientos.foldlM
        (fun contador ij => do
          let fila_adyacente := (f + ij.1) % filas
          let columna_adyacente := (c + ij.2) % columnas
          let fila ← pyGet life fila_adyacente
          let celda ← pyGet fila columna_adyacente
          pure (contador + (if celda then 1 else 0)))
        0

/-- Embeds `celda_siguiente(life, f, c)`: the next state of the cell at
`(f, c)`.  Reads `life[f][c]` (which raises out of bounds), counts the
live neighbours, and applies the birth/survival rule. -/
def celda_siguiente (life : List (List Bool)) (f c : Int) : Option Bool := do
  let celda ← pyGet life f >>= fun fila => pyGet fila c
  let n ← cant_adyacentes life f c
  pure (if celda = true then (if n = 2 ∨ n = 3 then true else false)
        else (if n = 3 then true else celda))

/-- Embeds `life_siguiente(life)`: the next generation.  Iterates `f`
over `range(len(life))` and `c` over `range(len(life[0]))` (the latter
only evaluated when the outer loop runs, hence `headD`), appending
`celda_siguiente(life, f, c)` to a fresh row and the row to a fresh
grid. -/
def life_siguiente (life : List (List Bool)) : Option (List (List Bool)) :=
  (List.range life.length).foldlM
    (fun (siguiente : List (List Bool)) (f : Nat) => do
      let fila ←
        (List.range (life.headD []).length).foldlM
          (fun (fila : List Bool) (c : Nat) => do
            let celda ← celda_siguiente life (f : Int) (c : Int)
            pure (fila ++ [celda]))
          []
      pure (siguiente ++ [fila]))
    []

/-- A grid is rectangular when every row has the length of the first row. -/
def Rectangular (life : List (List Bool)) : Prop :=
  ∀ fila ∈ life, fila.length = (life.headD []).length

instance (life : List (List Bool)) : Decidable (Rectangular life) := by
  unfold Rectangular; infer_instance

/-- The value `cant_adyacentes` returns on a rectangular grid
(proof-side pure companion). -/
def cant_adyacentes_run (life : List (List Bool)) (f c : Int) : Nat :=
  desplazamientos.foldl
    (fun contador ij =>
      contador +
        (if (life.getD ((f + ij.1) % (life.length : Int)).toNat []).getD
              ((c + ij.2) % (((life.headD []).length : Int))).toNat false
         then 1 else 0))
    0

/-- The value `celda_siguiente` returns on a rectangular grid at an
in-bounds position (proof-side pure companion). -/
def celda_run (life : List (List Bool)) (f c : Int) : Bool :=
  let celda := (life.getD f.toNat []).getD c.toNat false
  let n := cant_adyacentes_run life f c
  if celda = true then (if n = 2 ∨ n = 3 then true else false)
  else (if n = 3 then true else celda)

/-- The grid `life_siguiente` returns on a rectangular grid (proof-side
pure companion). -/
def life_siguiente_run (life : List (List Bool)) : List (List Bool) :=
  (List.range life.length).map (fun (f : Nat) =>
    (List.range (life.headD []).length).map (fun (c : Nat) => celda_run life (f : Int) (c : Int)))

/-- A 5×5 grid holding a horizontal blinker: cells (2,1), (2,2), (2,3)
alive, everything else dead. -/
def parpadeador : List (List Bool) :=
  [[false, false, false, false, false],
   [false, false, false, false, false],
   [false, true,  true,  true,  false],
   [false, false, false, false, false],
   [false, false, false, false, false]]

/-! ### Bridging lemmas between the embeddings and their pure companions -/

/-- An option-valued left fold equals a pure left fold once every step
succeeds. -/
theorem foldlM_option_eq {α β : Type} (g : β → α → Option β) (g2 : β → α → β)
    (l : List α) (h : ∀ b : β, ∀ a ∈ l, g b a = some (g2 b a)) (b : β) :
    l.foldlM g b = some (l.foldl g2 b) := by
  induction l generalizing b with
  | nil => rfl
  | cons x xs ih =>
    rw [List.foldlM_cons, h b x (List.mem_cons_self x xs)]
    rw [List.foldl_cons]
    exact ih (fun b a ha => h b a (List.mem_cons_of_mem x ha)) (g2 b x)

/-- A fold that appends one image per element builds `acc ++ l.map g`. -/
theorem foldl_append_singleton {α β : Type} (g : α → β) (l : List α) (acc : List β) :
    l.foldl (fun r x => r ++ [g x]) acc = acc ++ l.map g := by
  induction l generalizing acc with
  | nil => simp
  | cons x xs ih => simp [ih]

/-- `pyGet` succeeds on an in-range non-negative index. -/
theorem pyGet_eq_getD {α : Type} (xs : List α) (i : Int) (d : α)
    (h0 : 0 ≤ i) (h : i.toNat < xs.length) :
    pyGet xs i = some (xs.getD i.toNat d) := by
  unfold pyGet
  rw [if_pos h0, List.getElem?_eq_getElem h, List.getD_eq_getElem]

/-- A remainder modulo a positive `Nat`, taken in `Int`, is an in-range
index. -/
theorem emod_toNat_lt (a : Int) (n : Nat) (hn : 0 < n) :
    (a % (n : Int)).toNat < n := by
  have h1 : 0 ≤ a % (n : Int) := Int.emod_nonneg a (by omega)
  have h2 : a % (n : Int) < (n : Int) := Int.emod_lt_of_pos a (by omega)
  omega

theorem cant_adyacentes_eq_run (life : List (List Bool)) (f c : Int)
    (hrect : Rectangular life) (hne : life ≠ [])
    (hcol : (life.headD []).length ≠ 0) :
    cant_adyacentes life f c = some (cant_adyacentes_run life f c) := by
  obtain ⟨fila0, resto, rfl⟩ := List.exists_cons_of_ne_nil hne
  have hcol0 : fila0.length ≠ 0 := by simpa using hcol
  simp only [cant_adyacentes, List.head?_cons]
  rw [if_neg (by simpa using hcol0)]
  apply foldlM_option_eq
  intro b ij _
  have hlen : 0 < (fila0 :: resto).length := by simp
  have hfa0 : 0 ≤ (f + ij.1) % ((fila0 :: resto).length : Int) :=
    Int.emod_nonneg _ (by omega)
  have hfa : ((f + ij.1) % ((fila0 :: resto).length : Int)).toNat
      < (fila0 :: resto).length := emod_toNat_lt _ _ hlen
  have hmem : ((fila0 :: resto).getD
      ((f + ij.1) % ((fila0 :: resto).length : Int)).toNat [])
      ∈ (fila0 :: resto) := by
    rw [List.getD_eq_getElem _ _ hfa]
    exact List.getElem_mem hfa
  have hrow := hrect _ hmem
  have hca0 : 0 ≤ (c + ij.2) % (fila0.length : Int) :=
    Int.emod_nonneg _ (by exact_mod_cast hcol0)
  have hca : ((c + ij.2) % (fila0.length : Int)).toNat
      < ((fila0 :: resto).getD
          ((f + ij.1) % ((fila0 :: resto).length : Int)).toNat []).length := by
    rw [hrow]
    exact emod_toNat_lt _ _ (by simpa using Nat.pos_of_ne_zero hcol0)
  simp only [pyGet_eq_getD _ _ [] hfa0 hfa, Option.bind_eq_bind, Option.some_bind,
    pyGet_eq_getD _ _ false hca0 hca]
  rfl

theorem celda_siguiente_eq_run (life : List (List Bool)) (f c : Int)
    (hrect : Rectangular life)
    (h0f : 0 ≤ f) (hf : f.toNat < life.length)
    (h0c : 0 ≤ c) (hc : c.toNat < (life.headD []).length) :
    celda_siguiente life f c = some (celda_run life f c) := by
  have hne : life ≠ [] := by
    intro h
    rw [h] at hf
    simp at hf
  have hcol : (life.headD []).length ≠ 0 := by omega
  have hmem : (life.getD f.toNat []) ∈ life := by
    rw [List.getD_eq_getElem _ _ hf]
    exact List.getElem_mem hf
  have hrow := hrect _ hmem
  have hc2 : c.toNat < (life.getD f.toNat []).length := by rw [hrow]; exact hc
  unfold celda_siguiente
  simp only [pyGet_eq_getD _ _ [] h0f hf, Option.bind_eq_bind, Option.some_bind,
    pyGet_eq_getD _ _ false h0c hc2, cant_adyacentes_eq_run life f c hrect hne hcol]
  rfl

theorem life_siguiente_eq_run (life : List (List Bool)) (hrect : Rectangular life) :
    life_siguiente life = some (life_siguiente_run life) := by
  unfold life_siguiente life_siguiente_run
  rw [foldlM_option_eq _
    (fun (siguiente : List (List Bool)) (f : Nat) =>
      siguiente ++
        [(List.range (life.headD []).length).map (fun (c : Nat) => celda_run life (f : Int) (c : Int))])
    _ ?_ []]
  · rw [foldl_append_singleton]
    simp
  · intro b f hfmem
    rw [foldlM_option_eq _
      (fun (fila : List Bool) (c : Nat) => fila ++ [celda_run life (f : Int) (c : Int)]) _ ?_ []]
    · rw [foldl_append_singleton]
      simp only [Option.bind_eq_bind, Option.some_bind, List.nil_append]
      rfl
    · intro fila c hcmem
      have hf : (f : Int).toNat < life.length := by
        simpa using List.mem_range.mp hfmem
      have hc : (c : Int).toNat < (life.headD []).length := by
        simpa using List.mem_range.mp hcmem
      rw [celda_siguiente_eq_run life (f : Int) (c : Int) hrect (by omega) hf (by omega) hc]
      rfl

/-- Reading an index below `n` out of a map over `List.range n`. -/
theorem getD_map_range {β : Type} (n : Nat) (g : Nat → β) (f : Nat) (hf : f < n) (d : β) :
    ((List.range n).map g).getD f d = g f := by
  have hlen : f < ((List.range n).map g).length := by simpa using hf
  rw [List.getD_eq_getElem _ _ hlen]
  simp

/-- Bound for the neighbour count: a fold over at most 8 offsets, each
adding at most 1. -/
theorem foldl_add_indicator_le {α : Type} (q : α → Prop) [DecidablePred q]
    (l : List α) (a : Nat) :
    l.foldl (fun acc x => acc + (if q x then 1 else 0)) a ≤ a + l.length := by
  induction l generalizing a with
  | nil => simp
  | cons x xs ih =>
    rw [List.foldl_cons]
    calc xs.foldl (fun acc x => acc + (if q x then 1 else 0)) (a + (if q x then 1 else 0))
        ≤ (a + (if q x then 1 else 0)) + xs.length := ih _
      _ ≤ a + (x :: xs).length := by
          simp only [List.length_cons]
          split_ifs <;> omega

theorem cant_adyacentes_run_le (life : List (List Bool)) (f c : Int) :
    cant_adyacentes_run life f c ≤ 8 := by
  unfold cant_adyacentes_run
  have h := foldl_add_indicator_le
    (fun ij : Int × Int =>
      ((life.getD ((f + ij.1) % (life.length : Int)).toNat []).getD
        ((c + ij.2) % (((life.headD []).length : Int))).toNat false : Prop))
    desplazamientos 0
  simpa [desplazamientos] using h

/-- Claim C2: for every non-empty rectangular grid, the generation step
succeeds and returns a grid with the same number of rows, each output
row having the common row length of the input. -/
theorem life_siguiente_preserva_dimensiones (life : List (List Bool))
    (hrect : Rectangular life) (_hne : life ≠ []) :
    ∃ out, life_siguiente life = some out ∧ out.length = life.length ∧
      ∀ fila ∈ out, fila.length = (life.headD []).length := by
  refine ⟨life_siguiente_run life, life_siguiente_eq_run life hrect, ?_, ?_⟩
  · simp [life_siguiente_run]
  · intro fila hf
    unfold life_siguiente_run at hf
    rw [List.mem_map] at hf
    obtain ⟨f, _, rfl⟩ := hf
    simp

/-- Witness for claim C2 on a concrete 2×2 grid. -/
theorem life_siguiente_preserva_dimensiones_witness :
    ∃ out, life_siguiente [[true, false], [false, true]] = some out ∧
      out.length = ([[true, false], [false, true]] : List (List Bool)).length ∧
      ∀ fila ∈ out,
        fila.length = (([[true, false], [false, true]] : List (List Bool)).headD []).length :=
  life_siguiente_preserva_dimensiones [[true, false], [false, true]] (by decide) (by decide)

/-- Claim C4: on the 3×3 grid whose only live cell is the top-left one,
the toroidal neighbour count at the bottom-right cell (2,2) is exactly
1. -/
theorem cant_adyacentes_toroidal_esquina :
    cant_adyacentes
      [[true, false, false], [false, false, false], [false, false, false]] 2 2 = some 1 := by
  decide

/-- Claim C5, counterexample: on the 1×1 grid with a live cell the
neighbour counter returns 8, not 0 (all 8 offsets wrap back to the cell
itself). -/
theorem cant_adyacentes_uno_por_uno_contraejemplo :
    cant_adyacentes [[true]] 0 0 = some 8 ∧ cant_adyacentes [[true]] 0 0 ≠ some 0 := by
  decide

/-- Claim C5, amended: on a 1×1 grid the neighbour count at (0,0) is 0
for a dead cell but 8 for a live cell, and in both cases the generation
step succeeds and produces a dead cell. -/
theorem cant_adyacentes_uno_por_uno :
    ∀ b : Bool, cant_adyacentes [[b]] 0 0 = some (if b then 8 else 0) ∧
      life_siguiente [[b]] = some [[false]] := by
  decide

/-- Claim C6: the horizontal blinker on a 5×5 grid returns to itself
after two generation steps. -/
theorem parpadeador_periodo_dos :
    (life_siguiente parpadeador).bind life_siguiente = some parpadeador := by
  decide

/-- Claim C8, counterexample: called at position (5,7), far outside the
1×1 grid, the neighbour counter raises no error at all; it returns the
wrapped count 8. -/
theorem cant_adyacentes_fuera_de_rango_contraejemplo :
    cant_adyacentes [[true]] 5 7 = some 8 ∧ cant_adyacentes [[true]] 5 7 ≠ none := by
  decide

/-- Claim C8, amended: on a non-empty rectangular grid with at least one
column the neighbour counter never raises, whatever the position:
every coordinate is wrapped modulo the dimensions, so no out-of-bounds
error exists. -/
theorem cant_adyacentes_nunca_falla (life : List (List Bool)) (f c : Int)
    (hrect : Rectangular life) (hne : life ≠ [])
    (hcol : (life.headD []).length ≠ 0) :
    ∃ n, cant_adyacentes life f c = some n :=
  ⟨cant_adyacentes_run life f c, cant_adyacentes_eq_run life f c hrect hne hcol⟩

/-- Witness for claim C8 at the out-of-bounds position (-3, 4) of a 1×2
grid. -/
theorem cant_adyacentes_nunca_falla_witness :
    ∃ n, cant_adyacentes [[true, false]] (-3) 4 = some n :=
  cant_adyacentes_nunca_falla [[true, false]] (-3) 4 (by decide) (by decide) (by decide)

/-- Claim C10: on a non-empty rectangular grid, at any in-bounds
position the neighbour counter succeeds and returns a count of at most
8. -/
theorem cant_adyacentes_entre_cero_y_ocho (life : List (List Bool)) (f c : Nat)
    (hrect : Rectangular life) (hf : f < life.length)
    (hc : c < (life.headD []).length) :
    ∃ n, cant_adyacentes life (f : Int) (c : Int) = some n ∧ n ≤ 8 := by
  have hne : life ≠ [] := by
    intro h
    rw [h] at hf
    simp at hf
  have hcol : (life.headD []).length ≠ 0 := by omega
  exact ⟨cant_adyacentes_run life (f : Int) (c : Int),
    cant_adyacentes_eq_run life (f : Int) (c : Int) hrect hne hcol,
    cant_adyacentes_run_le life (f : Int) (c : Int)⟩

/-- Witness for claim C10 at position (1,1) of a 3×3 grid of live
cells. -/
theorem cant_adyacentes_entre_cero_y_ocho_witness :
    ∃ n, cant_adyacentes
        [[true, true, true], [true, true, true], [true, true, true]]
        ((1 : Nat) : Int) ((1 : Nat) : Int) = some n ∧ n ≤ 8 :=
  cant_adyacentes_entre_cero_y_ocho
    [[true, true, true], [true, true, true], [true, true, true]] 1 1
    (by decide) (by decide) (by decide)

/-- Claim C1: on a non-empty rectangular grid the generation step
succeeds, and the output cell at any in-bounds position (f, c) is alive
exactly when the input cell is alive with neighbour count 2 or 3, or
dead with neighbour count exactly 3 (count taken on the input grid); in
every other case it is dead. -/
theorem life_siguiente_regla (life : List (List Bool)) (f c : Nat)
    (hrect : Rectangular life) (hf : f < life.length)
    (hc : c < (life.headD []).length) :
    ∃ out n, life_siguiente life = some out ∧
      cant_adyacentes life (f : Int) (c : Int) = some n ∧
      ((out.getD f []).getD c false = true ↔
        ((life.getD f []).getD c false = true ∧ (n = 2 ∨ n = 3)) ∨
        ((life.getD f []).getD c false = false ∧ n = 3)) := by
  have hne : life ≠ [] := by
    intro h
    rw [h] at hf
    simp at hf
  have hcol : (life.headD []).length ≠ 0 := by omega
  refine ⟨life_siguiente_run life, cant_adyacentes_run life (f : Int) (c : Int),
    life_siguiente_eq_run life hrect,
    cant_adyacentes_eq_run life (f : Int) (c : Int) hrect hne hcol, ?_⟩
  unfold life_siguiente_run
  rw [getD_map_range _ _ f hf, getD_map_range _ _ c hc]
  unfold celda_run
  simp only [Int.toNat_natCast]
  rcases hcell : (life.getD f []).getD c false with _ | _ <;>
    by_cases h2 : cant_adyacentes_run life (f : Int) (c : Int) = 2 ∨
        cant_adyacentes_run life (f : Int) (c : Int) = 3 <;>
    simp_all

/-- Witness for claim C1 at position (0,1) of a 2×2 grid with three live
cells. -/
theorem life_siguiente_regla_witness :
    ∃ out n, life_siguiente [[true, true], [true, false]] = some out ∧
      cant_adyacentes [[true, true], [true, false]] ((0 : Nat) : Int) ((1 : Nat) : Int) = some n ∧
      ((out.getD 0 []).getD 1 false = true ↔
        ((([[true, true], [true, false]] : List (List Bool)).getD 0 []).getD 1 false = true ∧
          (n = 2 ∨ n = 3)) ∨
        (([[true, true], [true, false]] : List (List Bool)).getD 0 []).getD 1 false = false ∧
          n = 3) :=
  life_siguiente_regla [[true, true], [true, false]] 0 1 (by decide) (by decide) (by decide)

/-- Rewrites the decoder into map form: each input string becomes the
list of booleans marking its `'#'` characters. -/
theorem life_crear_eq_map (mapa : List String) :
    life_crear mapa =
      mapa.map (fun lista =>
        lista.data.map (fun caracter => if caracter = '#' then true else false)) := by
  unfold life_crear
  simp only [foldl_append_singleton, List.nil_append]

/-- Building a row string by repeated concatenation yields the string of
the mapped characters. -/
theorem foldl_concat_string (lista : List Bool) (s : String) :
    lista.foldl (fun cadenas caracter => cadenas ++ (if caracter = true then "#" else ".")) s =
      String.mk (s.data ++ lista.map (fun caracter => if caracter = true then '#' else '.')) := by
  induction lista generalizing s with
  | nil =>
    rw [List.map_nil, List.append_nil]
    rfl
  | cons b bs ih =>
    rw [List.foldl_cons, ih]
    cases b <;>
      simp [show ("." : String).data = ['.'] from rfl, show ("#" : String).data = ['#'] from rfl]

/-- Rewrites the encoder into map form: each row becomes the string of
its cells' symbols. -/
theorem life_mostrar_eq_map (life : List (List Bool)) :
    life_mostrar life =
      life.map (fun lista =>
        String.mk (lista.map (fun caracter => if caracter = true then '#' else '.'))) := by
  unfold life_mostrar
  simp only [foldl_append_singleton, List.nil_append]
  refine List.map_congr_left ?_
  intro lista _
  rw [foldl_concat_string]
  rfl

/-- Claim C3: on a non-empty list of equal-length strings made only of
the characters '.' and '#', encoding the decoded grid gives back exactly
the input lines. -/
theorem codec_ida_y_vuelta (mapa : List String) (_hne : mapa ≠ [])
    (_hlen : ∀ lista ∈ mapa, lista.length = (mapa.headD "").length)
    (hchars : ∀ lista ∈ mapa, ∀ caracter ∈ lista.data, caracter = '.' ∨ caracter = '#') :
    life_mostrar (life_crear mapa) = mapa := by
  rw [life_crear_eq_map, life_mostrar_eq_map, List.map_map]
  conv_rhs => rw [← List.map_id mapa]
  refine List.map_congr_left ?_
  intro lista hmem
  simp only [Function.comp_apply, List.map_map, id_eq]
  refine String.ext ?_
  show lista.data.map _ = lista.data
  have h1 : ∀ caracter ∈ lista.data,
      ((fun caracter => if caracter = true then '#' else '.') ∘
        (fun caracter => if caracter = '#' then true else false)) caracter = caracter := by
    intro caracter hch
    rcases hchars lista hmem caracter hch with rfl | rfl <;> rfl
  have h2 := List.map_congr_left h1
  simpa using h2

/-- Witness for claim C3 on the concrete two-line input. -/
theorem codec_ida_y_vuelta_witness :
    life_mostrar (life_crear ["#.", ".#"]) = ["#.", ".#"] :=
  codec_ida_y_vuelta ["#.", ".#"] (by decide) (by decide) (by decide)

/-- Claim C7, counterexample: on rows of unequal length the decoder
raises nothing and returns a jagged (non-rectangular) grid. -/
theorem life_crear_desigual_contraejemplo :
    life_crear ["#", "##"] = [[true], [true, true]] ∧
      ¬ Rectangular (life_crear ["#", "##"]) := by
  decide

/-- Claim C7, amended: the decoder performs no shape validation: for
every input (equal-length rows or not) it returns, without any error, a
grid whose rows mirror the input strings' lengths one by one. -/
theorem life_crear_sin_validacion (mapa : List String) :
    (life_crear mapa).map List.length = mapa.map String.length := by
  rw [life_crear_eq_map, List.map_map]
  refine List.map_congr_left ?_
  intro lista _
  show (List.map (fun caracter => if caracter = '#' then true else false) lista.data).length =
    lista.length
  rw [List.length_map]
  rfl

/-- Claim C9: the decoder accepts every character, mapping exactly `'#'`
to a live cell and everything else (including characters other than '.'
and '#') to a dead cell, and keeps the number of rows. -/
theorem life_crear_celdas (mapa : List String) (f c : Nat)
    (hf : f < mapa.length) (hc : c < (mapa.getD f "").length) :
    (life_crear mapa).length = mapa.length ∧
      (((life_crear mapa).getD f []).getD c false = true ↔
        (mapa.getD f "").data.getD c ' ' = '#') := by
  rw [life_crear_eq_map]
  refine ⟨by simp, ?_⟩
  rw [List.getD_eq_getElem mapa "" hf] at hc ⊢
  have hcd : c < (mapa[f]).data.length := hc
  have hf2 : f < (mapa.map (fun lista =>
      lista.data.map (fun caracter => if caracter = '#' then true else false))).length := by
    simpa using hf
  rw [List.getD_eq_getElem _ _ hf2, List.getElem_map]
  have hc2 : c < ((mapa[f]).data.map
      (fun caracter => if caracter = '#' then true else false)).length := by
    simpa using hcd
  rw [List.getD_eq_getElem _ _ hc2, List.getElem_map, List.getD_eq_getElem _ _ hcd]
  split_ifs with h <;> simp [h]

/-- Witness for claim C9 on an input line whose first character is
neither '.' nor '#'. -/
theorem life_crear_celdas_witness :
    (life_crear ["a#"]).length = (["a#"] : List String).length ∧
      (((life_crear ["a#"]).getD 0 []).getD 0 false = true ↔
        ((["a#"] : List String).getD 0 "").data.getD 0 ' ' = '#') :=
  life_crear_celdas ["a#"] 0 0 (by decide) (by decide)
